import Mathlib

/-!
Shallow embedding of the cobalt python wrapper (src/cobalt/cobalt.py):
the Job and Queue entity layer, the field-defaulting logic of
Job.from_string and Queue.__init__, the location-range expansion, the
job/queue cross-linking of Cobalt.get_queues_jobs, the admission checks
of Queue.submit, and the UserPolicy occupancy filter.

Conventions of the embedding:
* timedelta values are total seconds, as Int.
* The module-level binding user = getuser() is passed explicitly as a
  localUser : String argument to every function that reads it.
* Python exceptions surface as Except PyError or as an explicit field.
* The regex field-extraction layer is modelled by record structures whose
  optional fields hold the captured group of the corresponding regex when
  it matches the status blob and none when it does not; numeric captures
  are natural numbers, duration captures are hour/minute/second triples.
  The inner per-fragment location regex is modelled at string level.
-/

namespace Cobalt

/-- Python runtime errors raised by the embedded code paths. -/
inductive PyError where
  | nameError (n : String)
  | attributeError
  | valueError (msg : String)
  deriving DecidableEq

/-- A duration captured by a regex of shape digits:digits:digits. -/
structure HMS where
  h : Nat
  m : Nat
  s : Nat
  deriving DecidableEq

/-- Total seconds of timedelta with the given hours, minutes, seconds. -/
def HMS.seconds (t : HMS) : Int := (t.h : Int) * 3600 + (t.m : Int) * 60 + (t.s : Int)

/-- The queue attribute of a Job: either still the queue-name string from
parsing (byName), or, after cross-linking, a reference to the Queue object
of that name (resolved). Queue names act as object identity here since
linking looks queues up by name. -/
inductive QueueRef where
  | byName (s : String)
  | resolved (s : String)
  deriving DecidableEq

/-- The declared queue name, whatever the linking state. -/
def QueueRef.queueName : QueueRef → String
  | .byName s => s
  | .resolved s => s

/-- Embedding of Cobalt.Job (cobalt.py lines 28-127): the fields set by
Job.__init__. Durations are seconds; envs and attrs are association
lists. The dynamic kwargs mechanism is not modelled. -/
structure Job where
  jobid : Int := 0
  queue : QueueRef := QueueRef.byName ""
  user : Option String := none
  name : Option String := none
  users : List String := []
  walltime : Option Int := none
  runtime : Option Int := none
  start_time : Option Int := none
  queued_time : Option Int := none
  remaining_time : Option Int := none
  nodecount : Option Int := none
  proccount : Option Int := none
  location : List String := []
  state : String := "unknown"
  user_hold : Option Bool := none
  envs : List (String × String) := []
  attrs : List (String × String) := []
  dependencies : List Int := []
  deriving DecidableEq

/-- The declared queue name of a job. -/
def Job.queueName (j : Job) : String := j.queue.queueName

/-- Embedding of Cobalt.Queue (cobalt.py lines 307-592): the fields set by
Queue.__init__. mintime and maxtime are seconds. -/
structure Queue where
  name : String := ""
  jobs : List Job := []
  users : List String := []
  groups : List String := []
  mintime : Int := 600
  maxtime : Int := 3600
  maxrunning : Int := 0
  maxqueued : Int := 0
  maxusernodes : Int := 0
  maxnodehours : Int := 0
  totalnodes : Int := 0
  state : String := "unknown"
  deriving DecidableEq

/-- Names bound at the top level of module cobalt.py: its imports and its
own definitions (lines 8-22 and 788, 849). Method bodies resolve free
names against these plus the builtins; the enclosing class scope is not
searched. -/
def moduleTopLevelNames : List String :=
  ["os", "re", "stat", "getuser", "check_output", "ceil", "mkstemp",
   "timedelta", "datetime", "user", "getoutput", "Cobalt", "UserPolicy"]

/-- The Python builtin names the module touches. -/
def pythonBuiltinNames : List String :=
  ["isinstance", "int", "str", "len", "max", "min", "range", "next",
   "print", "setattr", "hasattr", "eval", "repr",
   "StopIteration", "ValueError", "KeyError", "NameError"]

/-- Whether a free name in a method body of cobalt.py resolves. -/
def resolves (n : String) : Bool :=
  moduleTopLevelNames.contains n || pythonBuiltinNames.contains n

/-- The digits of a numeral, folded to its value, as Python int() does on
a digit string. -/
def natOfDigits (cs : List Char) : Nat :=
  cs.foldl (fun a c => a * 10 + (c.toNat - 48)) 0

/-- Python int() applied to a string. Only canonical digit strings are
modelled (the call sites in cobalt.py only ever receive digit captures of
a regex, or arbitrary strings in Job.__eq__). -/
def pyInt (s : String) : Except PyError Int :=
  if s.data.all Char.isDigit && !s.data.isEmpty then
    Except.ok (natOfDigits s.data : Nat)
  else
    Except.error (PyError.valueError "invalid literal for int")

/-- The kinds of operand Job.__eq__ distinguishes. -/
inductive EqOperand where
  | jobVal (j : Job)
  | strVal (s : String)
  | intVal (n : Int)
  deriving DecidableEq

/-- Embedding of Cobalt.Job.__eq__ (cobalt.py lines 145-151). The first
statement of the body evaluates isinstance(other, Job). The free name Job
is looked up in the module globals and then the builtins (a method body
does not see the enclosing class scope, and cobalt.py has no top-level
binding named Job; compare Queue.__eq__ line 568, which writes the
qualified Cobalt.Queue). The lookup therefore fails and NameError is
raised before any comparison, whatever the operand. The intended
comparisons of lines 146-151 are kept under the unreachable guard. -/
def Job.pyEq (a : Job) (other : EqOperand) : Except PyError Bool :=
  if resolves "Job" then
    match other with
    | .jobVal b => Except.ok (decide (a.jobid = b.jobid))
    | .strVal s => do
      let n ← pyInt s
      Except.ok (decide (a.jobid = n))
    | .intVal n => Except.ok (decide (a.jobid = n))
  else
    Except.error (PyError.nameError "Job")

/-- The character class of the name group of the per-fragment location
regex in Job.from_string line 233: letters, underscore, hyphen, dot.
Digits are not in the class. -/
def isNameChar (c : Char) : Bool :=
  c.isAlpha || c == '_' || c == '-' || c == '.'

/-- The optional bracket group of the fragment regex, a prefix of shape
open-bracket digits hyphen digits close-bracket; returns the two numbers
when it matches as a prefix of the input, none otherwise. -/
def parseBracket : List Char → Option (Nat × Nat)
  | '[' :: rest =>
    let ds1 := rest.takeWhile Char.isDigit
    let r1 := rest.dropWhile Char.isDigit
    if ds1.isEmpty then none
    else
      match r1 with
      | '-' :: rest2 =>
        let ds2 := rest2.takeWhile Char.isDigit
        let r2 := rest2.dropWhile Char.isDigit
        if ds2.isEmpty then none
        else
          match r2 with
          | ']' :: _ => some (natOfDigits ds1, natOfDigits ds2)
          | _ => none
      | _ => none
  | _ => none

/-- Embedding of the per-fragment location handling of Job.from_string
(cobalt.py lines 233-239). The fragment is matched, anchored at its
start, against name group (maximal run of isNameChar), optional n group
(maximal run of digits), optional bracket range group. When the whole
regex fails (empty name group) the source dereferences None and raises
AttributeError, modelled as none. When the n group is nonempty or the
range group is absent the fragment is kept verbatim; otherwise it expands
to name followed by each integer from the first range number to the
second, inclusive. -/
def expandFragment (l : String) : Option (List String) :=
  let cs := l.data
  let nameGroup := cs.takeWhile isNameChar
  if nameGroup.isEmpty then
    none
  else
    let rest1 := cs.dropWhile isNameChar
    let nGroup := rest1.takeWhile Char.isDigit
    let rest2 := rest1.dropWhile Char.isDigit
    match parseBracket rest2 with
    | some (s, e) =>
      if nGroup.isEmpty then
        some ((List.range' s (e + 1 - s)).map
          (fun i => String.mk nameGroup ++ toString i))
      else
        some [l]
    | none => some [l]

/-- The location accumulation loop of Job.from_string lines 234-239 over
the comma-separated fragments of the Location capture. -/
def expandLocations : List String → Except PyError (List String)
  | [] => Except.ok []
  | l :: ls =>
    match expandFragment l with
    | none => Except.error PyError.attributeError
    | some hs => do
      let rest ← expandLocations ls
      Except.ok (hs ++ rest)

/-- The field-extraction outcome of applying the class-level job regexes
of Cobalt.Job (cobalt.py lines 52-85) to one status blob. Each field is
the captured, already-split group of the regex of the same label when the
blob matches it, none when it does not. -/
structure JobRecord where
  jobID : Option Nat := none
  queueField : Option String := none
  userField : Option String := none
  userList : Option (List String) := none
  jobName : Option String := none
  wallTime : Option HMS := none
  runTime : Option HMS := none
  startTime : Option HMS := none
  queuedTime : Option HMS := none
  timeRemaining : Option HMS := none
  nodes : Option Nat := none
  procs : Option Nat := none
  location : Option (List String) := none
  stateField : Option String := none
  userHold : Option String := none
  envsField : Option (List (String × String)) := none
  attrsField : Option (List (String × String)) := none
  dependenciesField : Option (List Nat) := none
  deriving DecidableEq

/-- Embedding of Cobalt.Job.from_string (cobalt.py lines 153-279). The
two required captures JobID and Queue are dereferenced unconditionally
(lines 155-156): when either regex does not match, .group(1) is called on
None and AttributeError is raised. Every other field starts from its
default of lines 157-172 and is overwritten only when its regex matched.
UserHold is False exactly when the capture is the string False (line
246). The Location capture is comma-split and every fragment goes through
expandFragment (lines 230-239); locationsOf is that step. -/
def Job.locationsOf (r : JobRecord) : Except PyError (List String) :=
  match r.location with
  | none => Except.ok []
  | some frags => expandLocations frags

/-- Continuation of Job.from_string: see locationsOf above for the
Location step; this function is the whole of lines 153-279. -/
def Job.from_string (r : JobRecord) : Except PyError Job := do
  let jobid ← match r.jobID with
    | none => Except.error PyError.attributeError
    | some n => pure (n : Int)
  let queue ← match r.queueField with
    | none => Except.error PyError.attributeError
    | some q => pure q
  let location ← Job.locationsOf r
  Except.ok
    { jobid := jobid
      queue := QueueRef.byName queue
      user := r.userField
      name := r.jobName
      users := r.userList.getD []
      walltime := r.wallTime.map HMS.seconds
      runtime := r.runTime.map HMS.seconds
      start_time := r.startTime.map HMS.seconds
      queued_time := r.queuedTime.map HMS.seconds
      remaining_time := r.timeRemaining.map HMS.seconds
      nodecount := r.nodes.map (fun n => (n : Int))
      proccount := r.procs.map (fun n => (n : Int))
      location := location
      state := r.stateField.getD "unknown"
      user_hold := r.userHold.map (fun s => !(s == "False"))
      envs := r.envsField.getD []
      attrs := r.attrsField.getD []
      dependencies := (r.dependenciesField.getD []).map (fun n => (n : Int)) }

/-- The field-extraction outcome of applying the class-level queue
regexes of Cobalt.Queue (cobalt.py lines 323-343) to one status blob. -/
structure QueueRecord where
  nameField : Option String := none
  usersField : Option (List String) := none
  groupsField : Option (List String) := none
  minTime : Option HMS := none
  maxTime : Option HMS := none
  maxRunning : Option Nat := none
  maxQueued : Option Nat := none
  maxUserNodes : Option Nat := none
  maxNodeHours : Option Nat := none
  totalNodes : Option Nat := none
  stateField : Option String := none
  deriving DecidableEq

/-- The static defaults table of Cobalt.Queue (cobalt.py lines 348-473),
keyed by queue name; the pair is (maxusernodes, totalnodes). -/
def Queue.defaults (name : String) : Option (Int × Int) :=
  match name with
  | "R.sc_workshop" => some (0, 0)
  | "atos" => some (1, 1)
  | "cl" => some (0, 0)
  | "comanche_B1" => some (0, 0)
  | "comanche_B1_smt2_noturbo" => some (0, 0)
  | "comanche_B1_smt2_turbo" => some (0, 0)
  | "comanche_B1_smt4_noturbo" => some (0, 0)
  | "comanche_B1_smt4_turbo" => some (0, 0)
  | "dgx" => some (1, 1)
  | "epyc_7601" => some (2, 2)
  | "firestones" => some (1, 1)
  | "fpga_385a" => some (1, 1)
  | "gomez" => some (4, 4)
  | "gomez_dual_hca" => some (1, 1)
  | "gpu_mules" => some (0, 0)
  | "gpu_power9_v100_smx2" => some (1, 1)
  | "gpu_rtx8000" => some (1, 1)
  | "gpu_v100_smx2" => some (3, 3)
  | "iris" => some (0, 0)
  | "iris_debug" => some (0, 0)
  | "it" => some (13, 13)
  | "k20x" => some (1, 1)
  | "knl_7210" => some (10, 10)
  | "knl_7250" => some (2, 2)
  | "mustangs" => some (2, 2)
  | "nurburg" => some (0, 0)
  | "skylake_8176" => some (1, 1)
  | "skylake_8180" => some (12, 12)
  | "skylake_8180_skylake12" => some (1, 1)
  | "skylake_p" => some (0, 0)
  | "thing" => some (8, 8)
  | _ => none

/-- Embedding of Cobalt.Queue.__init__ (cobalt.py lines 475-565). A
missing Name capture raises ValueError (line 485). When the MinTime
capture is present, the source computes timedelta with
seconds equal to the free variable sedonds (line 510); that name is bound
nowhere (a typo for seconds), so NameError is raised; when it is absent,
mintime defaults to ten minutes. maxusernodes and totalnodes fall back to
the defaults table, and to 0 for names not in it (KeyError handlers,
lines 535-559). -/
def Queue.fromRecord (r : QueueRecord) : Except PyError Queue := do
  let name ← match r.nameField with
    | none => Except.error (PyError.valueError "Invalid queue initializer")
    | some n => pure n
  let users := r.usersField.getD []
  let groups := r.groupsField.getD []
  let mintime ← match r.minTime with
    | none => pure (600 : Int)
    | some _ => Except.error (PyError.nameError "sedonds")
  let maxtime := match r.maxTime with
    | none => (3600 : Int)
    | some t => t.seconds
  let maxrunning : Int := (r.maxRunning.getD 0 : Nat)
  let maxqueued : Int := (r.maxQueued.getD 0 : Nat)
  let maxusernodes : Int := match r.maxUserNodes with
    | some n => (n : Int)
    | none => ((Queue.defaults name).map Prod.fst).getD 0
  let maxnodehours : Int := (r.maxNodeHours.getD 0 : Nat)
  let totalnodes : Int := match r.totalNodes with
    | some n => (n : Int)
    | none => ((Queue.defaults name).map Prod.snd).getD 0
  let state := r.stateField.getD "unknown"
  Except.ok
    { name := name
      jobs := []
      users := users
      groups := groups
      mintime := mintime
      maxtime := maxtime
      maxrunning := maxrunning
      maxqueued := maxqueued
      maxusernodes := maxusernodes
      maxnodehours := maxnodehours
      totalnodes := totalnodes
      state := state }

/-- The externally visible side effects of Queue.submit, in program
order: writing the temporary submission script (mkstemp and the writes,
lines 663-703), marking it executable (line 704), and invoking the qsub
subprocess (lines 707-711). -/
inductive Effect where
  | writeScript
  | chmodScript
  | runQsub
  deriving DecidableEq

/-- The outcome of one Queue.submit call: the effects it performed, the
state of the queue object after the call, the returned Job when it
returned, and the StopIteration message when it raised. -/
structure SubmitResult where
  effects : List Effect
  queue : Queue
  job : Option Job
  raised : Option String
  deriving DecidableEq

/-- Embedding of Cobalt.Queue.submit (cobalt.py lines 594-734). For a
queue built by Queue.__init__ the attributes jobs, maxusernodes and
totalnodes always exist, so the hasattr guards pass. The two admission
checks of lines 646-660 run first: each raises StopIteration with its
message and the call performs no effect and leaves the queue as it was.
Otherwise the script is written, chmod-ed, qsub invoked (its output is
the schedulerJobid argument), maxusernodes decremented by one (line 714)
and the Job of lines 715-734 returned. The dynamic kwargs of that Job
(project, submit_time, notify) are not modelled. -/
def Queue.submit (localUser : String) (q : Queue) (nodecount : Int)
    (time : Option Int) (jobname : Option String) (users : List String)
    (hold : Bool) (proccount : Int) (dependencies : List Int)
    (env : List (String × String)) (attrs : List (String × String))
    (no_oversuscribe : Bool) (schedulerJobid : Int) : SubmitResult :=
  let num_used : Int := ((q.jobs.filter (fun j => j.user == some localUser)).length : Int)
  if num_used + nodecount > q.maxusernodes then
    { effects := []
      queue := q
      job := none
      raised := some ("Submition on " ++ q.name ++ " cancelled due to user policy.") }
  else
    let num_queued : Int := (q.jobs.length : Int)
    if no_oversuscribe && decide (num_queued + nodecount > q.totalnodes) then
      { effects := []
        queue := q
        job := none
        raised := some ("Submition on " ++ q.name ++ " cancelled because queue is busy.") }
    else
      let t := time.getD q.maxtime
      { effects := [Effect.writeScript, Effect.chmodScript, Effect.runQsub]
        queue := { q with maxusernodes := q.maxusernodes - 1 }
        job := some
          { jobid := schedulerJobid
            queue := QueueRef.byName q.name
            user := some localUser
            name := jobname
            users := users
            walltime := some t
            runtime := some 0
            start_time := none
            queued_time := some 0
            remaining_time := some t
            nodecount := some nodecount
            proccount := some proccount
            location := []
            state := "queued"
            user_hold := some hold
            envs := env
            attrs := attrs
            dependencies := dependencies }
        raised := none }

/-- The per-queue mutation of the cross-linking loop body (cobalt.py
lines 755-758): the job is appended to the jobs list and, when its user
is the local user, maxusernodes is decremented by one. -/
def attachJob (localUser : String) (j : Job) (q : Queue) : Queue :=
  { q with
      jobs := q.jobs ++ [j]
      maxusernodes := q.maxusernodes - (if j.user == some localUser then 1 else 0) }

/-- Applies f to the first list element satisfying p, mirroring in-place
mutation of the object found by next(...) over the queue list. -/
def updateFirst (p : Queue → Bool) (f : Queue → Queue) : List Queue → List Queue
  | [] => []
  | q :: qs => if p q then f q :: qs else q :: updateFirst p f qs

/-- One iteration of the cross-linking loop of Cobalt.get_queues_jobs
(cobalt.py lines 752-758): the first queue whose name equals the job
declared queue name, if any, receives the job (whose queue attribute has
first been replaced by the queue object, line 755); otherwise nothing
changes. -/
def linkStep (localUser : String) (qs : List Queue) (j : Job) : List Queue × Job :=
  if qs.any (fun q => q.name == j.queueName) then
    let j2 := { j with queue := QueueRef.resolved j.queueName }
    (updateFirst (fun q => q.name == j2.queueName) (attachJob localUser j2) qs, j2)
  else
    (qs, j)

/-- The full cross-linking pass of Cobalt.get_queues_jobs (cobalt.py
lines 751-759) over the parsed queue and job collections, in job order. -/
def crossLink (localUser : String) (qs : List Queue) : List Job → List Queue × List Job
  | [] => (qs, [])
  | j :: js =>
    let p := linkStep localUser qs j
    let rest := crossLink localUser p.1 js
    (rest.1, p.2 :: rest.2)

/-- The jobs of the given list that declare queue name n, as they are
appended to that queue by cross-linking: with their queue attribute
already replaced by the queue object. -/
def assignedTo (n : String) (js : List Job) : List Job :=
  (js.filter (fun j => j.queueName == n)).map
    (fun j => { j with queue := QueueRef.resolved j.queueName })

/-- The number of jobs of the given list belonging to the local user. -/
def countLocal (localUser : String) (js : List Job) : Int :=
  ((js.filter (fun j => j.user == some localUser)).length : Int)

end Cobalt

/-- Embedding of the UserPolicy configuration (cobalt.py lines 788-815):
time-of-day offsets and wall-time ceilings in seconds, occupancy
fractions as exact rationals. -/
structure UserPolicy where
  office_day_start : Int
  office_day_stop : Int
  office_max_occupancy : Rat
  max_occupancy : Rat
  office_maxtime : Int
  maxtime : Int
  deriving DecidableEq

/-- The regime selection of UserPolicy.get_queues (cobalt.py lines
829-837): occupancy and maxtime start at the max_occupancy / maxtime
fields and are overwritten with the office figures exactly when
weekday < 5, or the time of day is before office_day_start, or after
office_day_stop. weekday is the Python datetime.weekday index (Monday 0)
and dt the time of day in seconds. -/
def UserPolicy.regime (p : UserPolicy) (weekday : Nat) (dt : Int) : Rat × Int :=
  if weekday < 5 ∨ dt < p.office_day_start ∨ dt > p.office_day_stop then
    (p.office_max_occupancy, p.office_maxtime)
  else
    (p.max_occupancy, p.maxtime)

/-- The per-queue body of the UserPolicy.get_queues loop (cobalt.py lines
839-844) for the chosen occupancy fraction and wall-time ceiling. -/
def adjustQueue (localUser : String) (occ : Rat) (maxt : Int) (q : Cobalt.Queue) :
    Cobalt.Queue :=
  let num_used : Int := ((q.jobs.filter (fun j => j.user == some localUser)).length : Int)
  let allowed : Int := max 1 ⌈(q.totalnodes : Rat) * occ⌉
  { q with
      maxusernodes := max (if num_used = 0 then 1 else 0) (allowed - num_used)
      maxtime := min maxt q.maxtime }

/-- The loop and final filter of UserPolicy.get_queues (cobalt.py lines
839-846) once the regime figures are fixed. -/
def applyRegime (localUser : String) (occ : Rat) (maxt : Int)
    (qs : List Cobalt.Queue) : List Cobalt.Queue :=
  (qs.map (adjustQueue localUser occ maxt)).filter (fun q => decide (0 < q.maxusernodes))

/-- Embedding of UserPolicy.get_queues (cobalt.py lines 817-846) on the
queue list returned by Cobalt.get_queues, for the current weekday index
and time of day. -/
def UserPolicy.get_queues (p : UserPolicy) (localUser : String) (weekday : Nat)
    (dt : Int) (qs : List Cobalt.Queue) : List Cobalt.Queue :=
  applyRegime localUser (p.regime weekday dt).1 (p.regime weekday dt).2 qs

/-- A concrete policy configuration with distinct office and off-hours
figures: office 09:00-17:00, office occupancy 1/4 and ceiling 30
minutes, off-hours occupancy 1/2 and ceiling 2 hours. -/
def samplePolicy : UserPolicy :=
  { office_day_start := 32400
    office_day_stop := 61200
    office_max_occupancy := 1/4
    max_occupancy := 1/2
    office_maxtime := 1800
    maxtime := 7200 }

/-- A job of the local user me, for the capacity examples. -/
def exJob (i : Int) : Cobalt.Job :=
  { jobid := i, queue := Cobalt.QueueRef.byName "exq10", user := some "me" }

/-- A queue of ten nodes on which me already has two jobs. -/
def exQueue10 : Cobalt.Queue :=
  { name := "exq10", jobs := [exJob 1, exJob 2], totalnodes := 10 }

/-- A queue reporting zero nodes and carrying no jobs. -/
def exQueue0 : Cobalt.Queue :=
  { name := "exq0", jobs := [], totalnodes := 0 }

/-- A queue on which the local user has no remaining allowance. -/
def exQueueFullUser : Cobalt.Queue :=
  { name := "fulluser", jobs := [], maxusernodes := 0, totalnodes := 9 }

/-- A queue with user allowance but no free node. -/
def exQueueBusy : Cobalt.Queue :=
  { name := "busy", jobs := [], maxusernodes := 5, totalnodes := 0 }

/-- A queue with room for the submission. -/
def exQueueOpen : Cobalt.Queue :=
  { name := "open", jobs := [], maxusernodes := 3, totalnodes := 4 }

/-- A parsed job declaring queue lq, for the cross-linking example. -/
def exLinkJob : Cobalt.Job :=
  { jobid := 9, queue := Cobalt.QueueRef.byName "lq", user := some "me" }

/-- A parsed queue named lq, for the cross-linking example. -/
def exLinkQueue : Cobalt.Queue :=
  { name := "lq", jobs := [], maxusernodes := 4, totalnodes := 4 }

/-! Theorems. -/

/-- C1: Cobalt.Job.__eq__ never reaches an identifier comparison. Its
first statement evaluates isinstance(other, Job); the free name Job does
not resolve in module scope (methods do not see the enclosing class
namespace), so every comparison of a Job with another Job, a string or an
integer raises NameError instead of deciding jobid equality. -/
theorem job_eq_always_raises (a : Cobalt.Job) (o : Cobalt.EqOperand) :
    Cobalt.Job.pyEq a o = Except.error (Cobalt.PyError.nameError "Job") := by
  unfold Cobalt.Job.pyEq
  rfl

/-- C3: whenever the queue status record carries a MinTime capture of
shape H:M:S, Queue construction raises NameError instead of setting
mintime, because line 510 of cobalt.py reads the unbound name sedonds, a
typo for seconds. -/
theorem queue_mintime_raises (r : Cobalt.QueueRecord) (n : String) (t : Cobalt.HMS)
    (hn : r.nameField = some n) (ht : r.minTime = some t) :
    Cobalt.Queue.fromRecord r = Except.error (Cobalt.PyError.nameError "sedonds") := by
  unfold Cobalt.Queue.fromRecord
  rw [hn, ht]
  rfl

/-- C3 witness: the concrete record Name: default, MinTime: 1:02:03
makes Queue construction raise NameError. -/
theorem queue_mintime_raises_witness :
    Cobalt.Queue.fromRecord { nameField := some "default", minTime := some ⟨1, 2, 3⟩ } =
      Except.error (Cobalt.PyError.nameError "sedonds") :=
  queue_mintime_raises _ "default" ⟨1, 2, 3⟩ rfl rfl

/-- C9: a queue record carrying only Name: testq constructs successfully
with empty user and group lists, mintime ten minutes, maxtime one hour,
zero maxrunning and maxqueued, state unknown, and — testq being absent
from the static defaults table — zero maxusernodes and totalnodes. -/
theorem queue_minimal_record :
    Cobalt.Queue.fromRecord { nameField := some "testq" } =
      Except.ok
        { name := "testq", jobs := [], users := [], groups := [], mintime := 600,
          maxtime := 3600, maxrunning := 0, maxqueued := 0, maxusernodes := 0,
          maxnodehours := 0, totalnodes := 0, state := "unknown" } := by
  rfl

/-- C4 counterexample: Monday noon (weekday 0, 12:00) satisfies the
condition weekday < 5, yet get_queues applies the office figures there,
not the off-hours figures max_occupancy and maxtime the claim states. -/
theorem regime_claim_false_at_monday_noon :
    ((0 : Nat) < 5 ∨ (43200 : Int) < samplePolicy.office_day_start ∨
      (43200 : Int) > samplePolicy.office_day_stop) ∧
    samplePolicy.regime 0 43200 ≠ (samplePolicy.max_occupancy, samplePolicy.maxtime) ∧
    samplePolicy.regime 0 43200 =
      (samplePolicy.office_max_occupancy, samplePolicy.office_maxtime) := by
  refine ⟨Or.inl (by norm_num), ?_, rfl⟩
  intro hc
  have h1 := congrArg Prod.fst hc
  norm_num [samplePolicy, UserPolicy.regime] at h1

/-- C4 as amended: UserPolicy.get_queues applies the office-hours figures
office_max_occupancy and office_maxtime exactly when the weekday index is
below 5, or the time of day is before office_day_start, or after
office_day_stop; otherwise it applies max_occupancy and maxtime. -/
theorem regime_selection (p : UserPolicy) (weekday : Nat) (dt : Int) :
    ((weekday < 5 ∨ dt < p.office_day_start ∨ dt > p.office_day_stop) →
      p.regime weekday dt = (p.office_max_occupancy, p.office_maxtime)) ∧
    (¬(weekday < 5 ∨ dt < p.office_day_start ∨ dt > p.office_day_stop) →
      p.regime weekday dt = (p.max_occupancy, p.maxtime)) := by
  constructor
  · intro h
    unfold UserPolicy.regime
    rw [if_pos h]
  · intro h
    unfold UserPolicy.regime
    rw [if_neg h]

/-- C4 witness: under samplePolicy, Monday noon picks the office figures
and Saturday noon picks the off-hours figures. -/
theorem regime_selection_witness :
    samplePolicy.regime 0 43200 =
      (samplePolicy.office_max_occupancy, samplePolicy.office_maxtime) ∧
    samplePolicy.regime 5 43200 = (samplePolicy.max_occupancy, samplePolicy.maxtime) :=
  ⟨(regime_selection samplePolicy 0 43200).1 (Or.inl (by norm_num)),
   (regime_selection samplePolicy 5 43200).2 (by decide)⟩

/-- C8: parsing a job status record that carries a JobID and a Queue
capture (and whose Location fragments, if any, expand without error)
succeeds, with jobid the captured integer and queue the captured name;
when every optional field is absent the Job carries exactly the
documented defaults. -/
theorem from_string_required_and_defaults (r : Cobalt.JobRecord) (n : Nat) (q : String)
    (hj : r.jobID = some n) (hq : r.queueField = some q)
    (hloc : r.location = none ∨
      ∃ hs, Cobalt.expandLocations (r.location.getD []) = Except.ok hs) :
    (∃ j, Cobalt.Job.from_string r = Except.ok j ∧
      j.jobid = (n : Int) ∧ j.queue = Cobalt.QueueRef.byName q) ∧
    (r = { jobID := some n, queueField := some q } →
      Cobalt.Job.from_string r = Except.ok
        { jobid := (n : Int), queue := Cobalt.QueueRef.byName q, user := none,
          name := none, users := [], walltime := none, runtime := none,
          start_time := none, queued_time := none, remaining_time := none,
          nodecount := none, proccount := none, location := [], state := "unknown",
          user_hold := none, envs := [], attrs := [], dependencies := [] }) := by
  have hlres : ∃ ls, Cobalt.Job.locationsOf r = Except.ok ls := by
    unfold Cobalt.Job.locationsOf
    cases hl : r.location with
    | none => exact ⟨[], rfl⟩
    | some frags =>
      rcases hloc with h | ⟨hs, h⟩
      · rw [hl] at h; cases h
      · rw [hl] at h
        exact ⟨hs, h⟩
  obtain ⟨ls, hls⟩ := hlres
  constructor
  · unfold Cobalt.Job.from_string
    rw [hj, hq, hls]
    exact ⟨_, rfl, rfl, rfl⟩
  · intro he
    subst he
    rfl

/-- C8 witness: the record carrying only JobID 42 and Queue default
parses to the all-defaults Job. -/
theorem from_string_required_and_defaults_witness :
    Cobalt.Job.from_string { jobID := some 42, queueField := some "default" } =
      Except.ok
        { jobid := 42, queue := Cobalt.QueueRef.byName "default", user := none,
          name := none, users := [], walltime := none, runtime := none,
          start_time := none, queued_time := none, remaining_time := none,
          nodecount := none, proccount := none, location := [], state := "unknown",
          user_hold := none, envs := [], attrs := [], dependencies := [] } :=
  (from_string_required_and_defaults _ 42 "default" rfl rfl (Or.inl rfl)).2 rfl

/-- C5: for every queue processed under a chosen occupancy fraction f and
wall-time ceiling T, the adjusted maxusernodes is the allowed-node figure
max(1, ceil(totalnodes * f)) minus the number of local-user jobs, floored
at 1 when the user has no jobs there and at 0 otherwise; maxtime becomes
the lesser of T and the configured maximum; and the returned queues are
exactly the adjusted ones with positive maxusernodes. -/
theorem policy_capacity (localUser : String) (f : Rat) (T : Int)
    (qs : List Cobalt.Queue) :
    (∀ q0 ∈ qs,
      (adjustQueue localUser f T q0).maxusernodes =
        max (if ((q0.jobs.filter (fun j => j.user == some localUser)).length : Int) = 0
              then 1 else 0)
          (max 1 ⌈(q0.totalnodes : Rat) * f⌉ -
            ((q0.jobs.filter (fun j => j.user == some localUser)).length : Int)) ∧
      (adjustQueue localUser f T q0).maxtime = min T q0.maxtime) ∧
    (∀ q, q ∈ applyRegime localUser f T qs ↔
      0 < q.maxusernodes ∧ ∃ q0 ∈ qs, q = adjustQueue localUser f T q0) := by
  constructor
  · intro q0 _
    exact ⟨rfl, rfl⟩
  · intro q
    constructor
    · intro hq
      rw [applyRegime, List.mem_filter] at hq
      obtain ⟨hm, hp⟩ := hq
      rw [List.mem_map] at hm
      obtain ⟨q0, hq0, rfl⟩ := hm
      exact ⟨by simpa using hp, q0, hq0, rfl⟩
    · rintro ⟨hpos, q0, hq0, rfl⟩
      rw [applyRegime, List.mem_filter]
      exact ⟨List.mem_map_of_mem _ hq0, by simpa using hpos⟩

/-- C5 witness: with occupancy 1/2, the ten-node queue with two local
jobs is retained with capacity 3, and the zero-node unused queue is
retained with capacity 1. -/
theorem policy_capacity_witness :
    (adjustQueue "me" (1/2) 1800 exQueue10).maxusernodes = 3 ∧
    (adjustQueue "me" (1/2) 1800 exQueue0).maxusernodes = 1 ∧
    adjustQueue "me" (1/2) 1800 exQueue10 ∈
      applyRegime "me" (1/2) 1800 [exQueue10, exQueue0] ∧
    adjustQueue "me" (1/2) 1800 exQueue0 ∈
      applyRegime "me" (1/2) 1800 [exQueue10, exQueue0] := by
  have h := policy_capacity "me" (1/2) 1800 [exQueue10, exQueue0]
  have h10 := (h.1 exQueue10 (by simp)).1
  have h0 := (h.1 exQueue0 (by simp)).1
  have e10 : (adjustQueue "me" (1/2) 1800 exQueue10).maxusernodes = 3 := by
    rw [h10]
    norm_num [exQueue10, exJob, List.filter]
  have e0 : (adjustQueue "me" (1/2) 1800 exQueue0).maxusernodes = 1 := by
    rw [h0]
    norm_num [exQueue0, List.filter]
  refine ⟨e10, e0, ?_, ?_⟩
  · exact (h.2 _).mpr ⟨by rw [e10]; norm_num, exQueue10, by simp, rfl⟩
  · exact (h.2 _).mpr ⟨by rw [e0]; norm_num, exQueue0, by simp, rfl⟩

/-- C6: both admission checks of Queue.submit refuse by raising the
StopIteration condition with a reason before any effect: when the local
user's job count plus the requested node count exceeds maxusernodes, and
— with the oversubscription guard enabled — when the total job count plus
the requested node count exceeds totalnodes, the call raises and neither
writes any file nor invokes any subprocess. -/
theorem submit_admission (localUser : String) (q : Cobalt.Queue) (nodecount : Int)
    (time : Option Int) (jobname : Option String) (users : List String) (hold : Bool)
    (proccount : Int) (deps : List Int) (env attrs : List (String × String))
    (noov : Bool) (sjid : Int) :
    (((q.jobs.filter (fun j => j.user == some localUser)).length : Int) + nodecount >
        q.maxusernodes →
      (Cobalt.Queue.submit localUser q nodecount time jobname users hold proccount
          deps env attrs noov sjid).raised =
        some ("Submition on " ++ q.name ++ " cancelled due to user policy.") ∧
      (Cobalt.Queue.submit localUser q nodecount time jobname users hold proccount
          deps env attrs noov sjid).effects = []) ∧
    (noov = true → (q.jobs.length : Int) + nodecount > q.totalnodes →
      (∃ msg, (Cobalt.Queue.submit localUser q nodecount time jobname users hold
          proccount deps env attrs noov sjid).raised = some msg) ∧
      (Cobalt.Queue.submit localUser q nodecount time jobname users hold proccount
          deps env attrs noov sjid).effects = []) := by
  unfold Cobalt.Queue.submit
  constructor
  · intro h
    rw [if_pos h]
    exact ⟨rfl, rfl⟩
  · intro hnoov h
    by_cases h1 : ((q.jobs.filter (fun j => j.user == some localUser)).length : Int) +
        nodecount > q.maxusernodes
    · rw [if_pos h1]
      exact ⟨⟨_, rfl⟩, rfl⟩
    · rw [if_neg h1]
      have h2 : (noov && decide ((q.jobs.length : Int) + nodecount > q.totalnodes)) = true := by
        rw [hnoov]
        simpa using h
      rw [if_pos h2]
      exact ⟨⟨_, rfl⟩, rfl⟩

/-- C6 witness: submitting one node on the exhausted-allowance queue
raises the user-policy refusal with no effect, and submitting one node on
the full queue with the guard enabled raises with no effect. -/
theorem submit_admission_witness :
    ((Cobalt.Queue.submit "me" exQueueFullUser 1 none none ["me"] false 1 [] [] []
        true 7).raised =
      some ("Submition on " ++ exQueueFullUser.name ++ " cancelled due to user policy.") ∧
     (Cobalt.Queue.submit "me" exQueueFullUser 1 none none ["me"] false 1 [] [] []
        true 7).effects = []) ∧
    ((∃ msg, (Cobalt.Queue.submit "me" exQueueBusy 1 none none ["me"] false 1 [] [] []
        true 7).raised = some msg) ∧
     (Cobalt.Queue.submit "me" exQueueBusy 1 none none ["me"] false 1 [] [] []
        true 7).effects = []) :=
  ⟨(submit_admission "me" exQueueFullUser 1 none none ["me"] false 1 [] [] [] true 7).1
      (by decide),
   (submit_admission "me" exQueueBusy 1 none none ["me"] false 1 [] [] [] true 7).2
      rfl (by decide)⟩

/-- C10: Queue.submit is atomic on refusal: whenever it raises one of the
two admission refusals it performs no effect, returns no job and leaves
the queue — maxusernodes and jobs included — exactly as it was; the
decrement of maxusernodes happens only on the non-raising path, which
performs the script write, the chmod and the qsub subprocess. -/
theorem submit_atomic_on_refusal (localUser : String) (q : Cobalt.Queue)
    (nodecount : Int) (time : Option Int) (jobname : Option String)
    (users : List String) (hold : Bool) (proccount : Int) (deps : List Int)
    (env attrs : List (String × String)) (noov : Bool) (sjid : Int) :
    (∀ msg, (Cobalt.Queue.submit localUser q nodecount time jobname users hold
        proccount deps env attrs noov sjid).raised = some msg →
      (Cobalt.Queue.submit localUser q nodecount time jobname users hold proccount
          deps env attrs noov sjid).queue = q ∧
      (Cobalt.Queue.submit localUser q nodecount time jobname users hold proccount
          deps env attrs noov sjid).job = none ∧
      (Cobalt.Queue.submit localUser q nodecount time jobname users hold proccount
          deps env attrs noov sjid).effects = []) ∧
    ((Cobalt.Queue.submit localUser q nodecount time jobname users hold proccount
        deps env attrs noov sjid).raised = none →
      (Cobalt.Queue.submit localUser q nodecount time jobname users hold proccount
          deps env attrs noov sjid).queue =
        { q with maxusernodes := q.maxusernodes - 1 } ∧
      (Cobalt.Queue.submit localUser q nodecount time jobname users hold proccount
          deps env attrs noov sjid).effects =
        [Cobalt.Effect.writeScript, Cobalt.Effect.chmodScript, Cobalt.Effect.runQsub]) := by
  unfold Cobalt.Queue.submit
  by_cases h1 : ((q.jobs.filter (fun j => j.user == some localUser)).length : Int) +
      nodecount > q.maxusernodes
  · rw [if_pos h1]
    exact ⟨fun msg _ => ⟨rfl, rfl, rfl⟩, fun h => by cases h⟩
  · rw [if_neg h1]
    by_cases h2 : (noov && decide ((q.jobs.length : Int) + nodecount > q.totalnodes)) = true
    · rw [if_pos h2]
      exact ⟨fun msg _ => ⟨rfl, rfl, rfl⟩, fun h => by cases h⟩
    · rw [if_neg h2]
      constructor
      · intro msg h
        cases h
      · intro _
        exact ⟨rfl, rfl⟩

/-- C10 witness: the refused submission on the exhausted-allowance queue
leaves it unchanged, and the accepted submission on the open queue
decrements maxusernodes by one after performing all three effects. -/
theorem submit_atomic_on_refusal_witness :
    (Cobalt.Queue.submit "me" exQueueFullUser 1 none none ["me"] false 1 [] [] []
        true 7).queue = exQueueFullUser ∧
    (Cobalt.Queue.submit "me" exQueueOpen 1 none none ["me"] false 1 [] [] []
        true 7).queue = { exQueueOpen with maxusernodes := exQueueOpen.maxusernodes - 1 } ∧
    (Cobalt.Queue.submit "me" exQueueOpen 1 none none ["me"] false 1 [] [] []
        true 7).effects =
      [Cobalt.Effect.writeScript, Cobalt.Effect.chmodScript, Cobalt.Effect.runQsub] := by
  refine ⟨((submit_atomic_on_refusal "me" exQueueFullUser 1 none none ["me"] false 1
      [] [] [] true 7).1 _ rfl).1, ?_, ?_⟩
  · exact ((submit_atomic_on_refusal "me" exQueueOpen 1 none none ["me"] false 1
      [] [] [] true 7).2 rfl).1
  · exact ((submit_atomic_on_refusal "me" exQueueOpen 1 none none ["me"] false 1
      [] [] [] true 7).2 rfl).2

/-- Helper: takeWhile passes over a prefix every element of which
satisfies the predicate. -/
theorem takeWhile_append_all {α : Type} (p : α → Bool) (xs ys : List α)
    (h : ∀ x ∈ xs, p x = true) :
    (xs ++ ys).takeWhile p = xs ++ ys.takeWhile p := by
  induction xs with
  | nil => simp
  | cons a l ih =>
    have ha : p a = true := h a (List.mem_cons_self a l)
    simp [List.takeWhile_cons, ha, ih (fun x hx => h x (List.mem_cons_of_mem a hx))]

/-- Helper: dropWhile removes a prefix every element of which satisfies
the predicate. -/
theorem dropWhile_append_all {α : Type} (p : α → Bool) (xs ys : List α)
    (h : ∀ x ∈ xs, p x = true) :
    (xs ++ ys).dropWhile p = ys.dropWhile p := by
  induction xs with
  | nil => simp
  | cons a l ih =>
    have ha : p a = true := h a (List.mem_cons_self a l)
    simp [List.dropWhile_cons, ha, ih (fun x hx => h x (List.mem_cons_of_mem a hx))]

/-- C2 counterexample: the fragment node1[3-5] — whose prefix node1 is a
legal host-name prefix under the Location character class — is kept
verbatim as a single element by the extractor, not expanded to the three
hosts node13, node14, node15 the claim requires, because the digit 1 is
captured by the n group and the source keeps any fragment with a
nonempty n group verbatim. -/
theorem location_digit_prefix_not_expanded :
    Cobalt.expandFragment "node1[3-5]" = some ["node1[3-5]"] ∧
    Cobalt.expandFragment "node1[3-5]" ≠ some ["node13", "node14", "node15"] :=
  ⟨rfl, by decide⟩

/-- C2 as amended: for every fragment prefix[start-end] whose prefix is a
nonempty string of letters, underscore, hyphen or dot (no digits) and
whose bounds are nonempty digit strings with start at most end, the
extractor yields exactly end-start+1 host names, the ascending range
prefix+start .. prefix+end; fragments whose prefix ends in a digit are
instead kept verbatim (see the counterexample). -/
theorem expandFragment_letter_range (name ds1 ds2 : List Char)
    (hname : name ≠ []) (hnc : ∀ c ∈ name, Cobalt.isNameChar c = true)
    (hd1 : ds1 ≠ []) (hd1c : ∀ c ∈ ds1, c.isDigit = true)
    (hd2 : ds2 ≠ []) (hd2c : ∀ c ∈ ds2, c.isDigit = true)
    (hle : Cobalt.natOfDigits ds1 ≤ Cobalt.natOfDigits ds2) :
    Cobalt.expandFragment (String.mk (name ++ '[' :: (ds1 ++ '-' :: (ds2 ++ [']'])))) =
      some ((List.range' (Cobalt.natOfDigits ds1)
          (Cobalt.natOfDigits ds2 - Cobalt.natOfDigits ds1 + 1)).map
        (fun i => String.mk name ++ toString i)) ∧
    ((List.range' (Cobalt.natOfDigits ds1)
        (Cobalt.natOfDigits ds2 - Cobalt.natOfDigits ds1 + 1)).length =
      Cobalt.natOfDigits ds2 - Cobalt.natOfDigits ds1 + 1) := by
  have hs1 : Cobalt.isNameChar '[' = false := by decide
  have hd0 : ('[' : Char).isDigit = false := by decide
  have hdash : ('-' : Char).isDigit = false := by decide
  have hclose : (']' : Char).isDigit = false := by decide
  have hTW : (name ++ '[' :: (ds1 ++ '-' :: (ds2 ++ [']']))).takeWhile Cobalt.isNameChar =
      name := by
    rw [takeWhile_append_all _ _ _ hnc, List.takeWhile_cons, hs1]
    simp
  have hDW : (name ++ '[' :: (ds1 ++ '-' :: (ds2 ++ [']']))).dropWhile Cobalt.isNameChar =
      '[' :: (ds1 ++ '-' :: (ds2 ++ [']'])) := by
    rw [dropWhile_append_all _ _ _ hnc, List.dropWhile_cons, hs1]
    simp
  have hTW2 : ('[' :: (ds1 ++ '-' :: (ds2 ++ [']']))).takeWhile Char.isDigit = [] := by
    rw [List.takeWhile_cons, hd0]
    simp
  have hDW2 : ('[' :: (ds1 ++ '-' :: (ds2 ++ [']']))).dropWhile Char.isDigit =
      '[' :: (ds1 ++ '-' :: (ds2 ++ [']'])) := by
    rw [List.dropWhile_cons, hd0]
    simp
  have hTW3 : (ds1 ++ '-' :: (ds2 ++ [']'])).takeWhile Char.isDigit = ds1 := by
    rw [takeWhile_append_all _ _ _ hd1c, List.takeWhile_cons, hdash]
    simp
  have hDW3 : (ds1 ++ '-' :: (ds2 ++ [']'])).dropWhile Char.isDigit =
      '-' :: (ds2 ++ [']']) := by
    rw [dropWhile_append_all _ _ _ hd1c, List.dropWhile_cons, hdash]
    simp
  have hTW4 : (ds2 ++ [']']).takeWhile Char.isDigit = ds2 := by
    rw [takeWhile_append_all _ _ _ hd2c, List.takeWhile_cons, hclose]
    simp
  have hDW4 : (ds2 ++ [']']).dropWhile Char.isDigit = [']'] := by
    rw [dropWhile_append_all _ _ _ hd2c, List.dropWhile_cons, hclose]
    simp
  have hnE : name.isEmpty = false := by
    cases name with
    | nil => cases hname rfl
    | cons a l => rfl
  have hd1E : ds1.isEmpty = false := by
    cases ds1 with
    | nil => cases hd1 rfl
    | cons a l => rfl
  have hd2E : ds2.isEmpty = false := by
    cases ds2 with
    | nil => cases hd2 rfl
    | cons a l => rfl
  have hcount : Cobalt.natOfDigits ds2 + 1 - Cobalt.natOfDigits ds1 =
      Cobalt.natOfDigits ds2 - Cobalt.natOfDigits ds1 + 1 := by omega
  have hPB : Cobalt.parseBracket ('[' :: (ds1 ++ '-' :: (ds2 ++ [']']))) =
      some (Cobalt.natOfDigits ds1, Cobalt.natOfDigits ds2) := by
    unfold Cobalt.parseBracket
    simp [hTW3, hDW3, hTW4, hDW4, hd1E, hd2E]
  constructor
  · unfold Cobalt.expandFragment
    simp only [hTW, hDW, hTW2, hDW2, hnE, hPB, hcount, List.isEmpty_nil,
      Bool.false_eq_true, if_false]
    rfl
  · rw [List.length_range']

/-- C2 witness: the amended theorem applied to prefix nodeA and bounds 3
and 5 yields exactly the three hosts of the claim, in ascending order. -/
theorem expandFragment_letter_range_witness :
    Cobalt.expandFragment "nodeA[3-5]" = some ["nodeA3", "nodeA4", "nodeA5"] := by
  have h := (expandFragment_letter_range
      ['n', 'o', 'd', 'e', 'A'] ['3'] ['5']
      (by decide) (by decide) (by decide) (by decide) (by decide) (by decide)
      (by decide)).1
  exact h.trans (by decide)

/-- Helper: attachJob does not change the queue name. -/
theorem attachJob_name (u : String) (j : Cobalt.Job) (q : Cobalt.Queue) :
    (Cobalt.attachJob u j q).name = q.name := rfl

/-- Helper: updateFirst with a name-preserving function preserves the
name list. -/
theorem updateFirst_map_name (p : Cobalt.Queue → Bool) (f : Cobalt.Queue → Cobalt.Queue)
    (hf : ∀ q, (f q).name = q.name) (qs : List Cobalt.Queue) :
    (Cobalt.updateFirst p f qs).map Cobalt.Queue.name = qs.map Cobalt.Queue.name := by
  induction qs with
  | nil => rfl
  | cons q qs ih =>
    unfold Cobalt.updateFirst
    by_cases hq : p q = true
    · rw [if_pos hq]
      simp [hf q]
    · rw [if_neg hq]
      simp [ih]

/-- Helper: one linking step preserves the queue name list. -/
theorem linkStep_fst_map_name (u : String) (qs : List Cobalt.Queue) (j : Cobalt.Job) :
    ((Cobalt.linkStep u qs j).1).map Cobalt.Queue.name = qs.map Cobalt.Queue.name := by
  unfold Cobalt.linkStep
  by_cases h : qs.any (fun q => q.name == j.queueName) = true
  · rw [if_pos h]
    exact updateFirst_map_name (fun q => q.name == j.queueName)
      (Cobalt.attachJob u { j with queue := Cobalt.QueueRef.resolved j.queueName })
      (fun q => rfl) qs
  · rw [if_neg h]

/-- Helper: whether some queue of the list has the given name depends
only on the name list. -/
theorem any_name_eq_of_map_name {qs1 qs2 : List Cobalt.Queue}
    (h : qs1.map Cobalt.Queue.name = qs2.map Cobalt.Queue.name) (s : String) :
    qs1.any (fun q => q.name == s) = qs2.any (fun q => q.name == s) := by
  induction qs1 generalizing qs2 with
  | nil =>
    cases qs2 with
    | nil => rfl
    | cons q2 l2 => cases h
  | cons q l ih =>
    cases qs2 with
    | nil => cases h
    | cons q2 l2 =>
      simp only [List.map_cons, List.cons.injEq] at h
      obtain ⟨h1, h2⟩ := h
      simp [List.any_cons, h1, ih h2]

/-- Helper: the job component of one linking step. -/
theorem linkStep_snd (u : String) (qs : List Cobalt.Queue) (j : Cobalt.Job) :
    (Cobalt.linkStep u qs j).2 =
      if qs.any (fun q => q.name == j.queueName) then
        { j with queue := Cobalt.QueueRef.resolved j.queueName }
      else j := by
  unfold Cobalt.linkStep
  by_cases h : qs.any (fun q => q.name == j.queueName) = true
  · rw [if_pos h, if_pos h]
  · rw [if_neg h, if_neg h]

/-- Helper: the jobs returned by the cross-linking pass are the input
jobs, each with its queue reference resolved exactly when a queue of
matching name exists. -/
theorem crossLink_snd (u : String) (qs : List Cobalt.Queue) (js : List Cobalt.Job) :
    (Cobalt.crossLink u qs js).2 = js.map (fun j =>
      if qs.any (fun q => q.name == j.queueName) then
        { j with queue := Cobalt.QueueRef.resolved j.queueName }
      else j) := by
  induction js generalizing qs with
  | nil => rfl
  | cons j js ih =>
    show ((Cobalt.linkStep u qs j).2 :: (Cobalt.crossLink u (Cobalt.linkStep u qs j).1 js).2) = _
    rw [ih ((Cobalt.linkStep u qs j).1), linkStep_snd]
    have hany := fun s => any_name_eq_of_map_name (linkStep_fst_map_name u qs j) s
    simp only [List.map_cons, hany]

/-- Helper: looking a name up after updateFirst on a (possibly other)
name: the lookup result is transformed exactly when the two names agree,
provided the update preserves names. -/
theorem find?_updateFirst_name (n m : String) (f : Cobalt.Queue → Cobalt.Queue)
    (hf : ∀ q, (f q).name = q.name) (qs : List Cobalt.Queue) :
    (Cobalt.updateFirst (fun q => q.name == n) f qs).find? (fun q => q.name == m) =
      if n = m then (qs.find? (fun q => q.name == m)).map f
      else qs.find? (fun q => q.name == m) := by
  induction qs with
  | nil =>
    simp [Cobalt.updateFirst]
  | cons q qs ih =>
    unfold Cobalt.updateFirst
    by_cases hqn : q.name = n
    · rw [if_pos (by simpa using hqn)]
      by_cases hnm : n = m
      · subst hnm
        rw [if_pos rfl]
        rw [List.find?_cons_of_pos _ (by simpa [hf q] using hqn),
          List.find?_cons_of_pos _ (by simpa using hqn)]
        rfl
      · rw [if_neg hnm]
        rw [List.find?_cons_of_neg _ (by simp [hf q, hqn]; exact fun hc => hnm (hqn ▸ hc)),
          List.find?_cons_of_neg _ (by simp; exact fun hc => hnm (hqn ▸ hc))]
    · rw [if_neg (by simpa using hqn)]
      by_cases hqm : q.name = m
      · have hnm : ¬n = m := fun hc => hqn (hc ▸ hqm)
        rw [if_neg hnm]
        rw [List.find?_cons_of_pos _ (by simpa using hqm),
          List.find?_cons_of_pos _ (by simpa using hqm)]
      · rw [List.find?_cons_of_neg _ (by simpa using hqm),
          List.find?_cons_of_neg _ (by simpa using hqm), ih]

/-- Helper: after the cross-linking pass, looking up any name finds the
original queue of that name (first occurrence) with the jobs declaring
that name appended and maxusernodes decremented once per appended job of
the local user. -/
theorem crossLink_fst_find (u n : String) (js : List Cobalt.Job) (qs : List Cobalt.Queue) :
    ((Cobalt.crossLink u qs js).1).find? (fun q => q.name == n) =
      (qs.find? (fun q => q.name == n)).map (fun q =>
        { q with
            jobs := q.jobs ++ Cobalt.assignedTo n js
            maxusernodes := q.maxusernodes -
              Cobalt.countLocal u (js.filter (fun j => j.queueName == n)) }) := by
  induction js generalizing qs with
  | nil =>
    cases hf : qs.find? (fun q => q.name == n) with
    | none => simp [Cobalt.crossLink, hf]
    | some q => simp [Cobalt.crossLink, hf, Cobalt.assignedTo, Cobalt.countLocal]
  | cons j js ih =>
    show ((Cobalt.crossLink u (Cobalt.linkStep u qs j).1 js).1).find? _ = _
    rw [ih]
    by_cases hmatch : qs.any (fun q => q.name == j.queueName) = true
    · have hstep : (Cobalt.linkStep u qs j).1 =
          Cobalt.updateFirst (fun q => q.name == j.queueName)
            (Cobalt.attachJob u { j with queue := Cobalt.QueueRef.resolved j.queueName })
            qs := by
        unfold Cobalt.linkStep
        rw [if_pos hmatch]
        rfl
      rw [hstep, find?_updateFirst_name j.queueName n
        (Cobalt.attachJob u { j with queue := Cobalt.QueueRef.resolved j.queueName })
        (fun q => rfl) qs]
      by_cases hqn : j.queueName = n
      · rw [if_pos hqn, Option.map_map]
        cases hf : qs.find? (fun q => q.name == n) with
        | none => rfl
        | some q =>
          have hjq : (j.queueName == n) = true := by simpa using hqn
          simp only [Option.map_some', Function.comp]
          congr 1
          by_cases hju : (j.user == some u) = true
          · simp [Cobalt.attachJob, Cobalt.assignedTo, Cobalt.countLocal,
              List.filter_cons, hjq, hju, List.append_assoc]
            omega
          · simp [Cobalt.attachJob, Cobalt.assignedTo, Cobalt.countLocal,
              List.filter_cons, hjq, hju, List.append_assoc]
      · rw [if_neg hqn]
        cases hf : qs.find? (fun q => q.name == n) with
        | none => rfl
        | some q =>
          have hjq : (j.queueName == n) = false := by simpa using hqn
          simp only [Option.map_some']
          congr 1
          simp [Cobalt.assignedTo, Cobalt.countLocal, List.filter_cons, hjq]
    · have hstep : (Cobalt.linkStep u qs j).1 = qs := by
        unfold Cobalt.linkStep
        rw [if_neg hmatch]
      rw [hstep]
      cases hf : qs.find? (fun q => q.name == n) with
      | none => rfl
      | some q =>
        have hmem := List.mem_of_find?_eq_some hf
        have hqname := List.find?_some hf
        have hqn : ¬j.queueName = n := by
          intro hc
          exact hmatch (List.any_eq_true.mpr ⟨q, hmem, by simpa [hc] using hqname⟩)
        have hjq : (j.queueName == n) = false := by simpa using hqn
        simp only [Option.map_some']
        congr 1
        simp [Cobalt.assignedTo, Cobalt.countLocal, List.filter_cons, hjq]

/-- C7: after get_queues_jobs parses the two collections and runs the
cross-linking loop, the job list is the parsed one with each job whose
declared queue name names a parsed queue now referencing that queue
object; and looking any name up among the queues finds the original
queue with exactly the jobs declaring it appended, in order, and
maxusernodes decremented by exactly one per appended job whose user is
the local invoking user. -/
theorem get_queues_jobs_crosslink (u : String) (qs : List Cobalt.Queue)
    (js : List Cobalt.Job) :
    ((Cobalt.crossLink u qs js).2 = js.map (fun j =>
      if qs.any (fun q => q.name == j.queueName) then
        { j with queue := Cobalt.QueueRef.resolved j.queueName }
      else j)) ∧
    (∀ n : String, ((Cobalt.crossLink u qs js).1).find? (fun q => q.name == n) =
      (qs.find? (fun q => q.name == n)).map (fun q =>
        { q with
            jobs := q.jobs ++ Cobalt.assignedTo n js
            maxusernodes := q.maxusernodes -
              Cobalt.countLocal u (js.filter (fun j => j.queueName == n)) })) :=
  ⟨crossLink_snd u qs js, fun n => crossLink_fst_find u n js qs⟩

/-- C7 witness: linking one local-user job declaring queue lq into the
one-queue list resolves the job reference, appends the job to lq and
decrements its maxusernodes from 4 to 3. -/
theorem get_queues_jobs_crosslink_witness :
    (Cobalt.crossLink "me" [exLinkQueue] [exLinkJob]).2 =
      [{ exLinkJob with queue := Cobalt.QueueRef.resolved "lq" }] ∧
    ((Cobalt.crossLink "me" [exLinkQueue] [exLinkJob]).1).find?
        (fun q => q.name == "lq") =
      some { exLinkQueue with
        jobs := [{ exLinkJob with queue := Cobalt.QueueRef.resolved "lq" }]
        maxusernodes := 3 } := by
  have h := get_queues_jobs_crosslink "me" [exLinkQueue] [exLinkJob]
  exact ⟨h.1.trans (by decide), (h.2 "lq").trans (by decide)⟩
